import Mathlib

/-!
Verification development for `tools/generate-wire.py`, the schema-driven
wire-codec generator: given CSV records describing binary network messages,
it builds an object model (type inference, field kinds, length variables,
TLV containers) and emits encode/decode procedures.

The Python source is shallowly embedded below: its global tables become
association lists (Python dicts preserve insertion order, which the source
relies on for the substring tier), its classes become structures, mutation
becomes explicit state passing, and fatal `raise` becomes `Except.error`.
The command-line flag `options.bolt` is threaded as a `Bool` parameter.

The wire-level primitives consumed by the *generated* code
(`towire_u16`, `fromwire_u16`, `fromwire_pad`, `tal_count`, the poisoned
cursor) live in `wire/wire.c`, outside this repository snapshot; where a
definition depends on them it is modelled from the specification and its
doc comment says so.
-/

deriving instance DecidableEq for Except

namespace GW

/-- The `Enumtype` namedtuple: symbolic name plus the (textual) discriminant
value taken straight from the CSV. -/
structure Enumtype where
  name : String
  value : String
deriving DecidableEq, Repr, Inhabited

/-- `type2size`: the static registry of known type names and byte widths,
in source order. -/
def type2size : List (String × Nat) :=
  [("pad", 1),
   ("struct channel_id", 32),
   ("struct short_channel_id", 8),
   ("struct ipv6", 16),
   ("secp256k1_ecdsa_signature", 64),
   ("struct preimage", 32),
   ("struct pubkey", 33),
   ("struct sha256", 32),
   ("struct bitcoin_blkid", 32),
   ("struct bitcoin_txid", 32),
   ("struct secret", 32),
   ("struct amount_msat", 8),
   ("struct amount_sat", 8),
   ("u64", 8),
   ("u32", 4),
   ("u16", 2),
   ("u8", 1),
   ("bool", 1)]

/-- `varlen_structs`: struct helpers that need an allocation context. -/
def varlen_structs : List String :=
  ["peer_features", "gossip_getnodes_entry", "failed_htlc", "utxo",
   "bitcoin_tx", "wirestring"]

/-!
String helpers.  The Python string methods used by the source
(`startswith`, `endswith`, `in`, slicing, `split`, `int()`) are modelled on
the character list underlying the `String`, so that every definition in
this file evaluates inside the kernel. -/

/-- Python `s.startswith(pre)`. -/
def pyStartsWith (s pre : String) : Bool := pre.toList.isPrefixOf s.toList

/-- Python `s.endswith(suf)`. -/
def pyEndsWith (s suf : String) : Bool := suf.toList.isSuffixOf s.toList

/-- Python `c in s` for a one-character needle. -/
def pyContains (s : String) (c : Char) : Bool := s.toList.contains c

/-- Python `s[n:]`. -/
def pyDropLeft (s : String) (n : Nat) : String := ⟨s.toList.drop n⟩

/-- Python `s[:-n]`. -/
def pyDropRight (s : String) (n : Nat) : String :=
  ⟨s.toList.take (s.toList.length - n)⟩

/-- Worker for `splitOnChar`. -/
def splitOnCharAux (c : Char) : List Char → List Char → List String
  | [], acc => [⟨acc.reverse⟩]
  | x :: xs, acc =>
    if x = c then ⟨acc.reverse⟩ :: splitOnCharAux c xs []
    else splitOnCharAux c xs (x :: acc)

/-- Python `s.split(c)` for a one-character separator. -/
def splitOnChar (c : Char) (s : String) : List String :=
  splitOnCharAux c s.toList []

/-- Python `int()` on the unsigned decimal tokens the generator consumes
(signs, whitespace and underscores do not occur in the CSV grammar). -/
def pyIntNat? (s : String) : Option Nat :=
  let cs := s.toList
  if cs.isEmpty then none
  else if cs.all Char.isDigit then
    some (cs.foldl (fun a c => a * 10 + (c.toNat - 48)) 0)
  else none

/-- `FieldType`: a named wire type. -/
structure FieldType where
  name : String
deriving DecidableEq, Repr, Inhabited

namespace FieldType

/-- `FieldType.is_assignable`. -/
def is_assignable (t : FieldType) : Bool :=
  t.name ∈ ["u8", "u16", "u32", "u64", "bool", "struct amount_msat",
            "struct amount_sat"] || pyStartsWith t.name "enum "

/-- `FieldType.has_array_helper`: only the u8 case is accelerated. -/
def has_array_helper (t : FieldType) : Bool :=
  t.name ∈ ["u8"]

/-- `FieldType.base`: strip a `struct ` or `enum ` prefix. -/
def base (t : FieldType) : String :=
  if pyStartsWith t.name "struct " then pyDropLeft t.name 7
  else if pyStartsWith t.name "enum " then pyDropLeft t.name 5
  else t.name

/-- `FieldType._typesize`: width lookup; unknown `struct `/`enum ` names get
width 0 (extensibility), anything else raises, modelled by `none`. -/
def typesize (typename : String) : Option Nat :=
  match type2size.lookup typename with
  | some w => some w
  | none =>
    if pyStartsWith typename "struct " || pyStartsWith typename "enum " then some 0
    else none

end FieldType

/-- `typemap`: exact (message, fieldname) overrides, in source order. -/
def typemap : List ((String × String) × FieldType) :=
  [(("update_fail_htlc", "reason"), ⟨"u8"⟩),
   (("node_announcement", "alias"), ⟨"u8"⟩),
   (("update_add_htlc", "onion_routing_packet"), ⟨"u8"⟩),
   (("update_fulfill_htlc", "payment_preimage"), ⟨"struct preimage"⟩),
   (("error", "data"), ⟨"u8"⟩),
   (("shutdown", "scriptpubkey"), ⟨"u8"⟩),
   (("node_announcement", "rgb_color"), ⟨"u8"⟩),
   (("node_announcement", "addresses"), ⟨"u8"⟩),
   (("node_announcement", "ipv6"), ⟨"struct ipv6"⟩),
   (("announcement_signatures", "short_channel_id"), ⟨"struct short_channel_id"⟩),
   (("channel_announcement", "short_channel_id"), ⟨"struct short_channel_id"⟩),
   (("channel_update", "short_channel_id"), ⟨"struct short_channel_id"⟩),
   (("revoke_and_ack", "per_commitment_secret"), ⟨"struct secret"⟩),
   (("channel_reestablish_option_data_loss_protect",
     "your_last_per_commitment_secret"), ⟨"struct secret"⟩),
   (("channel_update", "fee_base_msat"), ⟨"u32"⟩),
   (("final_incorrect_htlc_amount", "incoming_htlc_amt"), ⟨"struct amount_msat"⟩)]

/-- The substring-keyed name-convention table (source name: the partial-name
type map), in source (= iteration) order. -/
def ptypemap : List (String × FieldType) :=
  [("signature", ⟨"secp256k1_ecdsa_signature"⟩),
   ("features", ⟨"u8"⟩),
   ("channel_id", ⟨"struct channel_id"⟩),
   ("chain_hash", ⟨"struct bitcoin_blkid"⟩),
   ("funding_txid", ⟨"struct bitcoin_txid"⟩),
   ("pad", ⟨"pad"⟩),
   ("msat", ⟨"struct amount_msat"⟩),
   ("satoshis", ⟨"struct amount_sat"⟩)]

/-- `sizetypemap`: byte-width defaults. -/
def sizetypemap : List (Nat × FieldType) :=
  [(33, ⟨"struct pubkey"⟩),
   (32, ⟨"struct sha256"⟩),
   (8, ⟨"u64"⟩),
   (4, ⟨"u32"⟩),
   (2, ⟨"u16"⟩),
   (1, ⟨"u8"⟩)]

/-- Python `k in s` on strings: substring test. -/
def substrB (k s : String) : Bool :=
  s.toList.tails.any (fun t => k.toList.isPrefixOf t)

/-- First entry of the partial-name table whose key occurs in `fieldname`
(Python iterates the dict in insertion order and returns the first hit). -/
def firstPartialMatch (fieldname : String) : Option FieldType :=
  (ptypemap.find? (fun kv => substrB kv.1 fieldname)).map (·.2)

/-- `Field._guess_type`: exact override, then first substring match in the
partial-name table, then byte-size default; `none` models the
`Unknown size` ValueError. -/
def guess_type (message fieldname : String) (base_size : Nat) : Option FieldType :=
  match typemap.lookup (message, fieldname) with
  | some t => some t
  | none =>
    match firstPartialMatch fieldname with
    | some t => some t
    | none => sizetypemap.lookup base_size

/-- The `Field` object. `lenvar_for` in the source stores the referencing
Field object; only its name is consulted by the fragments modelled here, so
the name is recorded. `comments` is kept but irrelevant to the claims. -/
structure Field where
  message : String
  comments : List String := []
  name : String
  is_len_var : Bool := false
  lenvar : Option String := none
  lenvar_for : Option String := none
  num_elems : Nat := 1
  optional : Bool := false
  is_tlv : Bool := false
  fieldtype : FieldType
deriving DecidableEq, Repr, Inhabited

namespace Field

/-- `Field.is_padding`: classification purely by the name prefix. -/
def is_padding (f : Field) : Bool := pyStartsWith f.name "pad"

/-- `Field.is_array`: padding is always treated as an array. -/
def is_array (f : Field) : Bool := f.num_elems > 1 || f.is_padding

/-- `Field.is_variable_size`. -/
def is_variable_size (f : Field) : Bool := f.lenvar.isSome

/-- `Field.needs_ptr_to_ptr`. -/
def needs_ptr_to_ptr (f : Field) : Bool := f.is_variable_size || f.optional

/-- `Field.is_assignable`. -/
def is_assignable (f : Field) : Bool :=
  if f.is_array || f.needs_ptr_to_ptr then false else f.fieldtype.is_assignable

/-- `Field.has_array_helper`. -/
def has_array_helper (f : Field) : Bool := f.fieldtype.has_array_helper

end Field

/-- `Field.__init__`. The TLV sub-file load triggered by a `+`-suffixed name
only populates a global cache (`tlv_fields`) and is elided here; the Field
attributes themselves are computed exactly as in the source. Python `int()`
is modelled as decimal `Nat` parsing (the generator tokens are unsigned
decimals). Fatal ValueError becomes `Except.error`. -/
def mkField (bolt : Bool) (message name size : String)
    (prevname : Option String) (comments : List String := []) :
    Except String Field :=
  let is_tlv := pyEndsWith name "+"
  let name := if is_tlv then pyDropRight name 1 else name
  -- size-token dissection: (optional, lenvar, num_elems, remaining size token)
  let step : Except String (Bool × Option String × Nat × String) :=
    if pyStartsWith size "?" then
      .ok (true, none, 1, pyDropLeft size 1)
    else if pyContains size '*' then
      let number := (splitOnChar '*' size).getD 0 ""
      let rest := (splitOnChar '*' size).getD 1 ""
      if some number = prevname then .ok (false, some number, 1, rest)
      else
        match pyIntNat? number with
        | some k => .ok (false, none, k, rest)
        | none => .error ("invalid literal for int: " ++ number)
    else if bolt && some size = prevname then
      -- raw length field, implies u8
      .ok (false, some size, 1, "1")
    else
      .ok (false, none, 1, size)
  step.bind (fun st =>
    let opt := st.1
    let lv := st.2.1
    let ne := st.2.2.1
    let size := st.2.2.2
    if bolt then
      -- bolts use just a number: guess type based on size
      match pyIntNat? size with
      | none => .error ("invalid literal for int: " ++ size)
      | some base_size =>
        match guess_type message name base_size with
        | none => .error ("Unknown size for " ++ name)
        | some ft =>
          match FieldType.typesize ft.name with
          | none => .error ("Unknown typename " ++ ft.name)
          | some tsize =>
            if base_size % tsize != 0 then
              .error ("Invalid size " ++ toString base_size ++ " for " ++
                      message ++ "." ++ name ++ " not a multiple of " ++
                      toString tsize)
            else
              .ok { message, comments, name, lenvar := lv,
                    num_elems := base_size / tsize, optional := opt, is_tlv,
                    fieldtype := ft }
    else
      .ok { message, comments, name, lenvar := lv, num_elems := ne,
            optional := opt, is_tlv, fieldtype := ⟨size⟩ })

/-- The `Message` object. -/
structure Message where
  name : String
  enum : Enumtype
  comments : List String := []
  fields : List Field := []
  has_variable_fields : Bool := false
  is_tlv : Bool := false
deriving DecidableEq, Repr, Inhabited

/-- The scan of `Message.checkLenField` over the already-added fields:
first field whose name equals the new field lenvar decides; the in-place
mutation (`f.is_len_var = True`, `f.lenvar_for = field`) becomes returning
the updated field list. -/
def checkLenFieldScan (bolt : Bool) (field : Field) :
    List Field → Except String (List Field)
  | [] => .error ("Field " ++ field.name ++ " unknown length variable " ++
                  (field.lenvar.getD ""))
  | f :: fs =>
    if some f.name = field.lenvar then
      if f.fieldtype.name ≠ "u16" && bolt then
        .error ("Field " ++ field.name ++ " has non-u16 length variable " ++
                (field.lenvar.getD "") ++ " (type " ++ f.fieldtype.name ++ ")")
      else if f.is_array || f.needs_ptr_to_ptr then
        .error ("Field " ++ field.name ++ " has non-simple length variable " ++
                (field.lenvar.getD ""))
      else
        .ok ({ f with is_len_var := true, lenvar_for := some field.name } :: fs)
    else
      (checkLenFieldScan bolt field fs).map (f :: ·)

/-- `Message.checkLenField` (early `return` on optional fields included). -/
def checkLenField (bolt : Bool) (m : Message) (field : Field) :
    Except String (List Field) :=
  if field.optional then .ok m.fields
  else checkLenFieldScan bolt field m.fields

/-- `Message.addField`. -/
def addField (bolt : Bool) (m : Message) (field : Field) :
    Except String Message :=
  if field.is_variable_size then
    (checkLenField bolt m field).map (fun fs =>
      { m with fields := fs ++ [field], has_variable_fields := true })
  else if field.fieldtype.base ∈ varlen_structs || field.optional then
    .ok { m with fields := m.fields ++ [field], has_variable_fields := true }
  else
    .ok { m with fields := m.fields ++ [field] }

/-- One step of the main CSV loop for a field record `(name, size)` of a
single message (lines building `f`, `m.addField(f)` and the update
`if not f.lenvar: prevfield = parts[2]`). -/
def loopStep (bolt : Bool) (st : Message × Option String)
    (rec : String × String) : Except String (Message × Option String) := do
  let f ← mkField bolt st.1.name rec.1 rec.2 st.2
  let m ← addField bolt st.1 f
  if f.lenvar.isNone then
    return (m, some rec.1)
  else
    return (m, st.2)

/-- The main CSV loop restricted to the field records of one message,
starting from the fresh message (a message-start record resets
`prevfield` to `None`). -/
def processFields (bolt : Bool) (m : Message) (recs : List (String × String)) :
    Except String (Message × Option String) :=
  recs.foldlM (loopStep bolt) (m, none)

/-- The raise-checks performed by `Message.print_tlv_towire` /
`Message.print_tlv_fromwire` while walking the field list (nested TLV first,
then optional, first offending field wins); the emitted C text is elided,
only the fatal-error behaviour of the generation pass is retained. -/
def printTlvChecks : List Field → Except String Unit
  | [] => .ok ()
  | f :: fs =>
    if f.is_tlv then .error "Nested TLVs arent allowed!!"
    else if f.optional then
      .error "Optional fields on TLV messages not currently supported"
    else printTlvChecks fs

/-- Error behaviour of the TLV generation pass (`print_tlv_towire` and
`print_tlv_fromwire` perform the same two checks in the same order). -/
def print_tlv_gen_check (m : Message) : Except String Unit :=
  printTlvChecks m.fields

/-- Parameter list of the generated `fromwire_<name>` entry point
(`print_fromwire`, non-TLV): length-variable fields and padding fields are
skipped, everything else becomes a parameter. -/
def fromwire_params (m : Message) : List Field :=
  m.fields.filter (fun f => !(f.is_len_var || f.is_padding))

/-- Parameter list of the generated `towire_<name>` entry point
(`print_towire`, non-TLV): padding and length-variable fields are skipped. -/
def towire_params (m : Message) : List Field :=
  m.fields.filter (fun f => !(f.is_padding || f.is_len_var))

/-! ## Wire-level semantics of the generated code

The generated procedures call the primitives of `wire/wire.c`
(`towire_u16`, `fromwire_u16`, `fromwire_pad`, `towire_pad`, `tal_count`,
`fromwire_fail`), which are not part of this snapshot.  They are modelled
from the specification: big-endian fixed-width reads and writes over a byte
stream, a poisoned cursor represented by `Option`, padding that writes /
skips `count` bytes, and a presence byte for optional fields.  Bytes are
naturals; a write of a value truncates it to the field width exactly as the
C primitives do. -/

/-- Modelled from the spec: big-endian fixed-width write (the value is
truncated to `w` bytes, as `towire_u16` and friends do). -/
def natToBytes : Nat → Nat → List Nat
  | 0, _ => []
  | w + 1, v => natToBytes w (v / 256) ++ [v % 256]

/-- Modelled from the spec: big-endian read of a byte list. -/
def bytesToNat (bs : List Nat) : Nat :=
  bs.foldl (fun a b => a * 256 + b) 0

/-- Modelled from the spec: consume `w` bytes from the stream; `none` is the
poisoned cursor (a read past the end fails the whole decode). -/
def readBytes (w : Nat) (bs : List Nat) : Option (List Nat × List Nat) :=
  if w ≤ bs.length then some (bs.take w, bs.drop w) else none

/-- Modelled from the spec: fixed-width scalar read (`fromwire_u16` etc.). -/
def readScalar (w : Nat) (bs : List Nat) : Option (Nat × List Nat) :=
  (readBytes w bs).map (fun p => (bytesToNat p.1, p.2))

/-- The element loop of the generated array encode: `arr[i]` for `i < n`
(reads past the array end, impossible for well-formed instances, yield 0). -/
def encElems : List Nat → Nat → List Nat
  | _, 0 => []
  | [], n + 1 => 0 :: encElems [] n
  | v :: vs, n + 1 => v :: encElems vs n

/-- Bytes of an element list, each element written at width `w`. -/
def encodeElemBytes (w : Nat) : List Nat → List Nat
  | [] => []
  | v :: vs => natToBytes w v ++ encodeElemBytes w vs

/-- The element loop of the generated array decode: `n` scalars of width
`w`. -/
def readElems (w : Nat) : Nat → List Nat → Option (List Nat × List Nat)
  | 0, bs => some ([], bs)
  | n + 1, bs => do
    let (v, bs) ← readScalar w bs
    let (vs, bs) ← readElems w n bs
    some (v :: vs, bs)

/-- Byte width of a field, from the type registry. -/
def fieldWidth (f : Field) : Nat :=
  (FieldType.typesize f.fieldtype.name).getD 0

/-- Logical value of one caller-visible field: a scalar, an array, or an
optional scalar.  Length-variable and padding fields carry no caller
value. -/
inductive FieldVal
  | scalar (v : Nat)
  | arr (vs : List Nat)
  | opt (o : Option Nat)
deriving DecidableEq, Repr, Inhabited

/-- `tal_count` of the array a length-variable field describes: length of
the named entry in the instance (0 if the entry is not an array). -/
def getArrLen (inst : List (String × FieldVal)) (t : String) : Nat :=
  match inst.lookup t with
  | some (FieldVal.arr vs) => vs.length
  | _ => 0

/-- Encode of a message body (`print_towire` subcalls, in plan order, over
an instance listing the caller-visible fields in wire order).  Length
variables are recomputed from the instance (`tal_count`), never taken from
the caller; they are threaded through `env` exactly like the generated
local declarations.  The branch order mirrors the source
(padding / array / tlv / variable-size / length-variable /
optional / scalar); the nested-TLV branch is outside this fixed-width model
and emits nothing (well-formedness excludes it).  A shape mismatch between
field and instance emits nothing (well-formedness excludes it too; the
generated C cannot be called that way). -/
def encodeFields : List Field → List (String × FieldVal) →
    List (String × Nat) → List Nat
  | [], _, _ => []
  | f :: fs, inst, env =>
    let w := fieldWidth f
    if f.is_padding then
      List.replicate f.num_elems 0 ++ encodeFields fs inst env
    else if f.is_array then
      match inst with
      | (_, FieldVal.arr vs) :: inst' =>
        encodeElemBytes w (encElems vs f.num_elems) ++ encodeFields fs inst' env
      | _ => []
    else if f.is_tlv then []
    else if f.is_variable_size then
      match inst with
      | (_, FieldVal.arr vs) :: inst' =>
        let n := (env.lookup (f.lenvar.getD "")).getD 0
        encodeElemBytes w (encElems vs n) ++ encodeFields fs inst' env
      | _ => []
    else if f.is_len_var then
      let n := getArrLen inst (f.lenvar_for.getD "")
      natToBytes w n ++ encodeFields fs inst ((f.name, n) :: env)
    else if f.optional then
      match inst with
      | (_, FieldVal.opt none) :: inst' => 0 :: encodeFields fs inst' env
      | (_, FieldVal.opt (some v)) :: inst' =>
        1 :: (natToBytes w v ++ encodeFields fs inst' env)
      | _ => []
    else
      match inst with
      | (_, FieldVal.scalar v) :: inst' =>
        natToBytes w v ++ encodeFields fs inst' env
      | _ => []

/-- Decode of a message body (`print_fromwire` subcalls, in plan order):
padding only advances the cursor, length variables are read into transient
locals (`env`) and not exposed, variable-size fields read the count from
the local, optional fields read a presence byte first.  The nested-TLV
branch is outside this fixed-width model and poisons (well-formedness
excludes it). -/
def decodeFields : List Field → List Nat → List (String × Nat) →
    Option (List (String × FieldVal) × List Nat)
  | [], bs, _ => some ([], bs)
  | f :: fs, bs, env =>
    let w := fieldWidth f
    if f.is_padding then
      if f.num_elems ≤ bs.length then
        decodeFields fs (bs.drop f.num_elems) env
      else none
    else if f.is_array then do
      let (vs, bs) ← readElems w f.num_elems bs
      let (inst, r) ← decodeFields fs bs env
      some ((f.name, FieldVal.arr vs) :: inst, r)
    else if f.is_tlv then none
    else if f.is_variable_size then do
      let n ← env.lookup (f.lenvar.getD "")
      let (vs, bs) ← readElems w n bs
      let (inst, r) ← decodeFields fs bs env
      some ((f.name, FieldVal.arr vs) :: inst, r)
    else if f.is_len_var then do
      let (v, bs) ← readScalar w bs
      decodeFields fs bs ((f.name, v) :: env)
    else if f.optional then do
      let (b, bs) ← readScalar 1 bs
      if b = 0 then do
        let (inst, r) ← decodeFields fs bs env
        some ((f.name, FieldVal.opt none) :: inst, r)
      else do
        let (v, bs) ← readScalar w bs
        let (inst, r) ← decodeFields fs bs env
        some ((f.name, FieldVal.opt (some v)) :: inst, r)
    else do
      let (v, bs) ← readScalar w bs
      let (inst, r) ← decodeFields fs bs env
      some ((f.name, FieldVal.scalar v) :: inst, r)

/-- Well-formedness of a field plan together with an instance: the kinds of
messages and instances the generated fixed-width codecs cover.  Mirrors the
branch order of the codecs; requires a registered fixed width, no nested
TLV, no externally-allocated struct, instance entries in wire order with
matching names and shapes, element values within the field width, and each
length variable within its own width and equal (via `env`) to the count of
the field it describes. -/
def wfFields : List Field → List (String × FieldVal) →
    List (String × Nat) → Bool
  | [], inst, _ => inst.isEmpty
  | f :: fs, inst, env =>
    (FieldType.typesize f.fieldtype.name).isSome &&
    !(f.fieldtype.base ∈ varlen_structs) &&
    !f.is_tlv &&
    (let w := fieldWidth f
     if f.is_padding then wfFields fs inst env
     else if f.is_array then
       match inst with
       | (nm, FieldVal.arr vs) :: inst' =>
         nm = f.name && vs.length = f.num_elems &&
         vs.all (· < 256 ^ w) && wfFields fs inst' env
       | _ => false
     else if f.is_variable_size then
       match inst with
       | (nm, FieldVal.arr vs) :: inst' =>
         nm = f.name && env.lookup (f.lenvar.getD "") = some vs.length &&
         vs.all (· < 256 ^ w) && wfFields fs inst' env
       | _ => false
     else if f.is_len_var then
       let n := getArrLen inst (f.lenvar_for.getD "")
       n < 256 ^ w && wfFields fs inst ((f.name, n) :: env)
     else if f.optional then
       match inst with
       | (nm, FieldVal.opt o) :: inst' =>
         nm = f.name && (o.getD 0) < 256 ^ w && wfFields fs inst' env
       | _ => false
     else
       match inst with
       | (nm, FieldVal.scalar v) :: inst' =>
         nm = f.name && v < 256 ^ w && wfFields fs inst' env
       | _ => false)

/-- The generated `towire_<name>` (`towire_impl_templ`): 16-bit discriminant
then the field plan.  The discriminant is the numeric value the CSV
declared for the message (the textual enum value read as a decimal). -/
def towire_msg (d : Nat) (fs : List Field)
    (inst : List (String × FieldVal)) : List Nat :=
  natToBytes 2 d ++ encodeFields fs inst []

/-- The generated `fromwire_<name>` (`fromwire_impl_templ`): read the 16-bit
discriminant, fail on mismatch before reading any field, then decode the
plan; trailing bytes are tolerated (`return cursor != NULL`). -/
def fromwire_msg (d : Nat) (fs : List Field) (bs : List Nat) :
    Option (List (String × FieldVal)) := do
  let (v, bs) ← readScalar 2 bs
  if v = d then (decodeFields fs bs []).map (·.1) else none

/-- Numeric discriminant of a built message. -/
def enumValue (m : Message) : Nat := (pyIntNat? m.enum.value).getD 0

/-! ## Semantics of the generated TLV container code -/

/-- One conditional entry of the generated `towire__<tlv>`
(`tlv__type_impl_towire_fields`): when the caller-supplied record pointer is
present, a 16-bit tag, then a 16-bit length, then the record payload; absent
records contribute nothing.  The length the template writes is
`sizeof(*ptr)` — a compile-time constant of the record struct type, passed
here as the parameter `sizeofVal` since it depends only on the target C
layout, never on the record contents. -/
def tlv_entry_towire (tagVal sizeofVal : Nat) (present : Bool)
    (payload : List Nat) : List Nat :=
  if present then
    natToBytes 2 tagVal ++ natToBytes 2 sizeofVal ++ payload
  else []

/-- The generated `_fromwire_<tlv>_<rec>` (`fromwire_tlv_impl_templ`):
decode the record fields from the cursor, succeed only when the cursor
never poisoned and exactly `len` bytes were consumed
(`start_len - plen == len`).  `tal_count` on the cursor is modelled from
the spec as the remaining byte count. -/
def recDecode (fs : List Field) (bs : List Nat) (len : Nat) : Bool :=
  if bs.length < len then false
  else
    match decodeFields fs bs [] with
    | some (_, r) => bs.length - r.length = len
    | none => false

/-- The dispatch loop of the generated `fromwire__<tlv>`
(`tlv__type_impl_fromwire_template`), faithfully including that a
dispatched known record does NOT advance the outer cursor or remaining
count past its payload (the case passes `cursor` by value and `break`s):
read 16-bit tag and length, fail when the declared length exceeds what
remains, dispatch known tags, skip exactly `length` bytes on unknown tags.
The fuel only bounds iterations; every continuing iteration consumes at
least the 4 header bytes, so `bs.length + 1` iterations never run out. -/
def tlvLoop (recs : List (Nat × (List Nat → Nat → Bool))) :
    Nat → List Nat → Bool
  | 0, _ => false
  | fuel + 1, bs =>
    if bs.isEmpty then true
    else
      match readScalar 2 bs with
      | none => false
      | some (tag, bs1) =>
        match readScalar 2 bs1 with
        | none => false
        | some (len, bs2) =>
          if bs2.length < len then false
          else
            match recs.lookup tag with
            | some dec => if dec bs2 len then tlvLoop recs fuel bs2 else false
            | none => tlvLoop recs fuel (bs2.drop len)

/-- The generated `fromwire__<tlv>` on its allotted span. -/
def fromwire_tlv (recs : List (Nat × (List Nat → Nat → Bool)))
    (bs : List Nat) : Bool :=
  tlvLoop recs (bs.length + 1) bs

/-! ## Byte-level lemmas -/

theorem natToBytes_length (w v : Nat) : (natToBytes w v).length = w := by
  induction w generalizing v with
  | zero => rfl
  | succ w ih => simp [natToBytes, ih]

theorem bytesToNat_append (xs : List Nat) (b : Nat) :
    bytesToNat (xs ++ [b]) = bytesToNat xs * 256 + b := by
  simp [bytesToNat, List.foldl_append]

theorem bytesToNat_natToBytes {w v : Nat} (h : v < 256 ^ w) :
    bytesToNat (natToBytes w v) = v := by
  induction w generalizing v with
  | zero =>
    interval_cases v
    rfl
  | succ w ih =>
    have hdiv : v / 256 < 256 ^ w := by
      apply Nat.div_lt_of_lt_mul
      calc v < 256 ^ (w + 1) := h
        _ = 256 * 256 ^ w := by ring
    have := ih hdiv
    simp [natToBytes, bytesToNat_append, this]
    omega

theorem take_append_self (xs ys : List Nat) : (xs ++ ys).take xs.length = xs := by
  induction xs with
  | nil => rfl
  | cons x xs ih => simp [ih]

theorem drop_append_self (xs ys : List Nat) : (xs ++ ys).drop xs.length = ys := by
  induction xs with
  | nil => rfl
  | cons x xs ih => simp [ih]

theorem readBytes_append {w : Nat} {xs : List Nat} (h : xs.length = w)
    (ys : List Nat) : readBytes w (xs ++ ys) = some (xs, ys) := by
  subst h
  simp [readBytes, take_append_self, drop_append_self]

theorem readScalar_append {w v : Nat} (h : v < 256 ^ w) (r : List Nat) :
    readScalar w (natToBytes w v ++ r) = some (v, r) := by
  simp [readScalar, readBytes_append (natToBytes_length w v) r,
        bytesToNat_natToBytes h]

theorem encElems_self (vs : List Nat) : encElems vs vs.length = vs := by
  induction vs with
  | nil => rfl
  | cons v vs ih => simp [encElems, ih]

theorem readElems_append {w : Nat} {vs : List Nat}
    (h : ∀ v ∈ vs, v < 256 ^ w) (r : List Nat) :
    readElems w vs.length (encodeElemBytes w vs ++ r) = some (vs, r) := by
  induction vs with
  | nil => simp [readElems, encodeElemBytes]
  | cons v vs ih =>
    have hv : v < 256 ^ w := h v (by simp)
    have hrest : ∀ x ∈ vs, x < 256 ^ w := fun x hx => h x (by simp [hx])
    simp only [encodeElemBytes, List.length_cons, readElems, List.append_assoc,
               readScalar_append hv, Option.bind_eq_bind, Option.some_bind,
               ih hrest]

theorem natToBytes_one_lt {b : Nat} (h : b < 256) : natToBytes 1 b = [b] := by
  simp [natToBytes, Nat.mod_eq_of_lt h, Nat.div_eq_of_lt h]

theorem readScalar_one_cons (b : Nat) (rest : List Nat) :
    readScalar 1 (b :: rest) = some (b, rest) := by
  simp [readScalar, readBytes, bytesToNat]

theorem replicate_append_drop (n : Nat) (l : List Nat) :
    (List.replicate n (0 : Nat) ++ l).drop n = l := by
  induction n with
  | zero => rfl
  | succ n ih =>
    simp only [List.replicate_succ, List.cons_append, List.drop_succ_cons]
    exact ih

/-- Master round-trip induction over the field plan: decoding the encoded
body of a well-formed instance recovers exactly the instance and leaves the
trailing bytes untouched. -/
theorem decodeFields_encodeFields :
    ∀ (fs : List Field) (inst : List (String × FieldVal))
      (env : List (String × Nat)) (r : List Nat),
      wfFields fs inst env = true →
      decodeFields fs (encodeFields fs inst env ++ r) env = some (inst, r)
  | [], inst, env, r, hwf => by
    simp only [wfFields, List.isEmpty_iff] at hwf
    subst hwf
    simp [encodeFields, decodeFields]
  | f :: fs, inst, env, r, hwf => by
    simp only [wfFields, Bool.and_eq_true] at hwf
    obtain ⟨⟨⟨hws, hvl⟩, htlv⟩, hif⟩ := hwf
    rw [Bool.not_eq_true'] at htlv
    by_cases hp : f.is_padding = true
    · -- padding: encode writes zeros, decode only advances
      simp only [if_pos hp] at hif
      have ih := decodeFields_encodeFields fs inst env r hif
      simp only [encodeFields, decodeFields, if_pos hp, List.append_assoc]
      rw [List.length_append, List.length_replicate, if_pos (by omega),
          replicate_append_drop]
      exact ih
    · by_cases ha : f.is_array = true
      · -- fixed array
        rw [if_neg hp, if_pos ha] at hif
        rcases inst with _ | ⟨⟨nm, val⟩, inst'⟩
        · simp at hif
        rcases val with v | vs | o
        · simp at hif
        · simp only [Bool.and_eq_true, decide_eq_true_eq, List.all_eq_true]
            at hif
          obtain ⟨⟨⟨hnm, hlen⟩, hbound⟩, hwf'⟩ := hif
          have hb : ∀ v ∈ vs, v < 256 ^ fieldWidth f := by
            intro v hv; simpa using hbound v hv
          have ih := decodeFields_encodeFields fs inst' env r hwf'
          simp only [encodeFields, decodeFields, if_neg hp, if_pos ha,
                     List.append_assoc]
          rw [← hlen, encElems_self, readElems_append hb]
          simp [ih, hnm]
        · simp at hif
      · by_cases hv : f.is_variable_size = true
        · -- length-prefixed array: count comes from the env local
          rw [if_neg hp, if_neg ha, if_pos hv] at hif
          rcases inst with _ | ⟨⟨nm, val⟩, inst'⟩
          · simp at hif
          rcases val with v | vs | o
          · simp at hif
          · simp only [Bool.and_eq_true, decide_eq_true_eq, List.all_eq_true]
              at hif
            obtain ⟨⟨⟨hnm, hlk⟩, hbound⟩, hwf'⟩ := hif
            have hb : ∀ v ∈ vs, v < 256 ^ fieldWidth f := by
              intro v hv'; simpa using hbound v hv'
            have ih := decodeFields_encodeFields fs inst' env r hwf'
            simp only [encodeFields, decodeFields, if_neg hp, if_neg ha,
                       if_neg (htlv ▸ Bool.false_ne_true), if_pos hv,
                       List.append_assoc, hlk, Option.getD_some,
                       Option.bind_eq_bind, Option.some_bind]
            rw [encElems_self, readElems_append hb]
            simp [ih, hnm]
          · simp at hif
        · by_cases hl : f.is_len_var = true
          · -- length variable: written from the instance, read to a local
            rw [if_neg hp, if_neg ha, if_neg hv, if_pos hl] at hif
            simp only [Bool.and_eq_true, decide_eq_true_eq] at hif
            obtain ⟨hbnd, hwf'⟩ := hif
            have ih := decodeFields_encodeFields fs inst
              ((f.name, getArrLen inst (f.lenvar_for.getD "")) :: env) r hwf'
            simp only [encodeFields, decodeFields, if_neg hp, if_neg ha,
                       if_neg (htlv ▸ Bool.false_ne_true), if_neg hv,
                       if_pos hl, List.append_assoc]
            rw [readScalar_append hbnd]
            simpa using ih
          · by_cases ho : f.optional = true
            · -- optional: presence byte then the value
              rw [if_neg hp, if_neg ha, if_neg hv, if_neg hl, if_pos ho]
                at hif
              rcases inst with _ | ⟨⟨nm, val⟩, inst'⟩
              · simp at hif
              rcases val with v | vs | o
              · simp at hif
              · simp at hif
              simp only [Bool.and_eq_true, decide_eq_true_eq] at hif
              obtain ⟨⟨hnm, hbnd⟩, hwf'⟩ := hif
              have ih := decodeFields_encodeFields fs inst' env r hwf'
              cases o with
              | none =>
                simp only [encodeFields, decodeFields, if_neg hp, if_neg ha,
                           if_neg (htlv ▸ Bool.false_ne_true), if_neg hv,
                           if_neg hl, if_pos ho, List.cons_append,
                           List.append_assoc]
                rw [readScalar_one_cons]
                simp [ih, hnm]
              | some v =>
                simp only [Option.getD_some] at hbnd
                simp only [encodeFields, decodeFields, if_neg hp, if_neg ha,
                           if_neg (htlv ▸ Bool.false_ne_true), if_neg hv,
                           if_neg hl, if_pos ho, List.cons_append,
                           List.append_assoc]
                rw [readScalar_one_cons]
                simp only [Option.bind_eq_bind, Option.some_bind,
                           if_neg (by omega : ¬(1 : Nat) = 0)]
                rw [readScalar_append hbnd]
                simp [ih, hnm]
            · -- plain scalar
              rw [if_neg hp, if_neg ha, if_neg hv, if_neg hl, if_neg ho]
                at hif
              rcases inst with _ | ⟨⟨nm, val⟩, inst'⟩
              · simp at hif
              rcases val with v | vs | o
              · simp only [Bool.and_eq_true, decide_eq_true_eq] at hif
                obtain ⟨⟨hnm, hbnd⟩, hwf'⟩ := hif
                have ih := decodeFields_encodeFields fs inst' env r hwf'
                simp only [encodeFields, decodeFields, if_neg hp, if_neg ha,
                           if_neg (htlv ▸ Bool.false_ne_true), if_neg hv,
                           if_neg hl, if_neg ho, List.append_assoc]
                rw [readScalar_append hbnd]
                simp [ih, hnm]
              · simp at hif
              · simp at hif

/-! ## Claim C1: three-tier type inference priority -/

/-- C1: in inferred mode, resolution of (messageName, fieldName, byteSize)
applies exactly three tiers in strict priority order: an exact
(messageName, fieldName) entry of the override table always wins; otherwise
the first substring match of the partial-name table (in iteration order)
wins; otherwise the byte-size default table decides; and resolution fails
(the unknown-size error) precisely when no tier matches.  `guess_type` is a
pure function of its three arguments and the fixed tables, so inference is
deterministic. -/
theorem C1_inference_tiers (m f : String) (s : Nat) :
    (∀ ft, typemap.lookup (m, f) = some ft → guess_type m f s = some ft) ∧
    (typemap.lookup (m, f) = none →
      ∀ ft, firstPartialMatch f = some ft → guess_type m f s = some ft) ∧
    (typemap.lookup (m, f) = none → firstPartialMatch f = none →
      guess_type m f s = sizetypemap.lookup s) ∧
    (guess_type m f s = none ↔
      typemap.lookup (m, f) = none ∧ firstPartialMatch f = none ∧
        sizetypemap.lookup s = none) := by
  unfold guess_type
  rcases h1 : typemap.lookup (m, f) with _ | ft1 <;>
    rcases h2 : firstPartialMatch f with _ | ft2 <;>
      simp

/-- Witness for C1 at concrete inputs: the override tier beats the size
tier on (error, data) even at size 33; the substring tier fires for a name
containing `signature`; the size tier fires for a plain name; no tier gives
failure. -/
theorem C1_inference_tiers_witness :
    guess_type "error" "data" 33 = some ⟨"u8"⟩ ∧
    guess_type "m" "htlc_signature" 33 = some ⟨"secp256k1_ecdsa_signature"⟩ ∧
    guess_type "m" "value" 33 = some ⟨"struct pubkey"⟩ ∧
    guess_type "m" "value" 7 = none :=
  ⟨(C1_inference_tiers "error" "data" 33).1 ⟨"u8"⟩ (by decide),
   (C1_inference_tiers "m" "htlc_signature" 33).2.1 (by decide)
     ⟨"secp256k1_ecdsa_signature"⟩ (by decide),
   by rw [(C1_inference_tiers "m" "value" 33).2.2.1 (by decide) (by decide)]; decide,
   ((C1_inference_tiers "m" "value" 7).2.2.2).mpr
     ⟨by decide, by decide, by decide⟩⟩

/-! ## Claim C2: the TLV encode length prefix -/

/-- The length-variable field of the TLV record used to analyse the
generated container encode: a u16 counting the `data` array. -/
def tlvRecLen : Field :=
  { message := "tmsg", name := "len", is_len_var := true,
    lenvar_for := some "data", fieldtype := ⟨"u16"⟩ }

/-- The variable-size byte array of that record (`len*u8`). -/
def tlvRecData : Field :=
  { message := "tmsg", name := "data", lenvar := some "len",
    fieldtype := ⟨"u8"⟩ }

/-- The fresh TLV record message the container loader creates for tag 1. -/
def tlvMsg0 : Message :=
  { name := "tmsg", enum := ⟨"TLV_TMSG", "1"⟩, is_tlv := true }

/-- The builder really produces exactly these two fields from the CSV
records `len,2` and `data,len*1` of a TLV record in bolt mode. -/
theorem tlvRec_is_built :
    (processFields true tlvMsg0 [("len", "2"), ("data", "len*1")]).map
      (fun p => p.1.fields) = .ok [tlvRecLen, tlvRecData] := by decide

/-- Serialized payload of that record, through the generated record encode:
the recomputed u16 length followed by the bytes. -/
def recEncodeLenData (data : List Nat) : List Nat :=
  encodeFields [tlvRecLen, tlvRecData] [("data", FieldVal.arr data)] []

/-- C2 (code defect): the generated container encode does emit an entry
exactly when the record is present (absent records contribute no bytes, the
first conjunct), but the 16-bit length it writes is `sizeof(*ptr)`, a
compile-time constant of the record struct type: for a variable-size record
the empty and the one-byte instances have serialized sizes 2 and 3, so no
constant can equal the serialized size of both, contradicting the claim
that the emitted length equals the serialized size.  (The generated decode
then fails its own `start_len - plen == len` consistency check on such
entries.) -/
theorem C2_sizeof_length_bug :
    ∀ sizeofVal : Nat,
      tlv_entry_towire 1 sizeofVal false (recEncodeLenData []) = [] ∧
      ((recEncodeLenData []).length ≠ sizeofVal ∨
       (recEncodeLenData [0]).length ≠ sizeofVal) := by
  intro s
  refine ⟨rfl, ?_⟩
  have h0 : (recEncodeLenData []).length = 2 := by decide
  have h1 : (recEncodeLenData [0]).length = 3 := by decide
  omega

/-! ## Claim C7: unknown-tag skipping in the TLV decode loop -/

/-- Known TLV record type 1 for the C7 analysis: one u64 field,
8-byte payload. -/
def tlvRec1 : Field := { message := "rec1", name := "v1", fieldtype := ⟨"u64"⟩ }

/-- Known TLV record type 2 for the C7 analysis: one u32 field,
4-byte payload. -/
def tlvRec2 : Field := { message := "rec2", name := "v2", fieldtype := ⟨"u32"⟩ }

/-- The dispatch table of the generated `fromwire__<tlv>` for the two known
record types. -/
def c7recs : List (Nat × (List Nat → Nat → Bool)) :=
  [(1, recDecode [tlvRec1]), (2, recDecode [tlvRec2])]

/-- C7 (code defect): a container holding only an unknown record (tag 3,
declared length 5) is skipped exactly and decodes successfully (first
conjunct) — but the claim also asserts known records after the unknown one
are still decoded, and they are not: the dispatched known-record case never
advances the outer cursor past the record payload, so after dispatching the
tag-2 record its own 4 payload bytes 00 01 00 05 are re-read as a TLV
header (tag 1, length 5) with nothing remaining, and the whole decode
fails (second conjunct). -/
theorem C7_unknown_skip_bug :
    fromwire_tlv c7recs [0, 3, 0, 5, 9, 9, 9, 9, 9] = true ∧
    fromwire_tlv c7recs
      ([0, 3, 0, 5, 9, 9, 9, 9, 9] ++ [0, 2, 0, 4, 0, 1, 0, 5]) = false := by
  constructor <;> decide

/-! ## Claim C8: round trip -/

/-- The single u16 field of the C8 counterexample message. -/
def fldU16x : Field := { message := "m", name := "x", fieldtype := ⟨"u16"⟩ }

/-- C8 counterexample: the claim quantifies over every message type, but a
message whose CSV discriminant does not fit the 16-bit wire discriminant
(here 70000) never round-trips: encode truncates the discriminant to
70000 mod 2^16 and decode immediately rejects it, even though the instance
(x = 5 in a u16 field) is perfectly legal (second conjunct). -/
theorem C8_roundtrip_counterexample :
    fromwire_msg 70000 [fldU16x]
      (towire_msg 70000 [fldU16x] [("x", FieldVal.scalar 5)]) = none ∧
    wfFields [fldU16x] [("x", FieldVal.scalar 5)] [] = true := by
  constructor <;> decide

/-- C8 amended: for every message whose discriminant fits 16 bits and whose
field plan and instance are well formed for the fixed-width codecs (no
nested-TLV field, no externally-allocated struct codec, values within the
field widths, length variables within their own widths and matching the
counts they describe), decoding the encoding yields exactly the
instance. -/
theorem C8_roundtrip (d : Nat) (fs : List Field)
    (inst : List (String × FieldVal)) (hd : d < 65536)
    (hwf : wfFields fs inst [] = true) :
    fromwire_msg d fs (towire_msg d fs inst) = some inst := by
  have h := decodeFields_encodeFields fs inst [] [] hwf
  rw [List.append_nil] at h
  have hd2 : d < 256 ^ 2 := by norm_num; omega
  simp [fromwire_msg, towire_msg, readScalar_append hd2, h]

/-- The `num_pong_bytes` field of the ping example. -/
def ping_num : Field :=
  { message := "ping", name := "num_pong_bytes", fieldtype := ⟨"u16"⟩ }

/-- The transient `byte_len` length variable of the ping example. -/
def ping_len : Field :=
  { message := "ping", name := "byte_len", is_len_var := true,
    lenvar_for := some "ignored", fieldtype := ⟨"u16"⟩ }

/-- The length-prefixed `ignored` array of the ping example. -/
def ping_ignored : Field :=
  { message := "ping", name := "ignored", lenvar := some "byte_len",
    fieldtype := ⟨"u8"⟩ }

/-- The fresh ping message. -/
def pingMsg0 : Message := { name := "ping", enum := ⟨"WIRE_PING", "18"⟩ }

/-- The builder really produces the ping example fields from its CSV
records in bolt mode. -/
theorem ping_is_built :
    (processFields true pingMsg0
      [("num_pong_bytes", "2"), ("byte_len", "2"),
       ("ignored", "byte_len*1")]).map (fun p => p.1.fields) =
    .ok [ping_num, ping_len, ping_ignored] := by decide

/-- The encode of the ping example instance is the 2-byte discriminant
followed by 00 00 00 00, as the specification example scenario states. -/
theorem ping_example_bytes :
    towire_msg 18 [ping_num, ping_len, ping_ignored]
      [("num_pong_bytes", FieldVal.scalar 0), ("ignored", FieldVal.arr [])] =
    [0, 18, 0, 0, 0, 0] := by decide

/-- Witness for the amended C8 on the ping example instance. -/
theorem C8_roundtrip_witness :
    fromwire_msg 18 [ping_num, ping_len, ping_ignored]
      (towire_msg 18 [ping_num, ping_len, ping_ignored]
        [("num_pong_bytes", FieldVal.scalar 0), ("ignored", FieldVal.arr [])])
    = some [("num_pong_bytes", FieldVal.scalar 0),
            ("ignored", FieldVal.arr [])] :=
  C8_roundtrip 18 _ _ (by omega) (by decide)

/-! ## Claim C6: optional / nested-TLV fields inside a TLV record -/

/-- C6 counterexample: a TLV record containing an optional field builds
without any error — `addField` accepts it and even sets the
variable-fields flag — so the violation is NOT a fatal error at
container-build time. -/
theorem C6_build_accepts_optional :
    ((mkField false "tmsg" "x" "?u16" none).bind
      (addField false tlvMsg0)).map
      (fun m => (m.is_tlv, m.has_variable_fields,
                 m.fields.map (fun f => (f.optional, f.is_tlv)))) =
    .ok (true, true, [(true, false)]) := by decide

/-- C6 amended: an optional or nested-TLV field inside a TLV record is a
fatal error, but it fires when the TLV implementation-generation pass
(`print_tlv_towire` / `print_tlv_fromwire`) walks the fields, not at
container-build time. -/
theorem printTlvChecks_rejects (fs : List Field) (f : Field) (hf : f ∈ fs)
    (hbad : f.optional = true ∨ f.is_tlv = true) :
    (printTlvChecks fs).isOk = false := by
  induction fs with
  | nil => simp at hf
  | cons g gs ih =>
    by_cases hg : g.is_tlv = true
    · simp [printTlvChecks, hg, Except.isOk, Except.toBool]
    · by_cases hgo : g.optional = true
      · simp [printTlvChecks, hg, hgo, Except.isOk, Except.toBool]
      · rcases List.mem_cons.mp hf with rfl | hf'
        · rcases hbad with hb | hb
          · exact absurd hb hgo
          · exact absurd hb hg
        · simpa [printTlvChecks, hg, hgo] using ih hf'

theorem C6_generation_rejects (m : Message) (f : Field)
    (_hm : m.is_tlv = true) (hf : f ∈ m.fields)
    (hbad : f.optional = true ∨ f.is_tlv = true) :
    (print_tlv_gen_check m).isOk = false :=
  printTlvChecks_rejects m.fields f hf hbad

/-- The optional u16 field of the C6 example record. -/
def c6Field : Field :=
  { message := "tmsg", name := "x", optional := true, fieldtype := ⟨"u16"⟩ }

/-- The C6 example record as built (the result of the counterexample
pipeline). -/
def c6Msg : Message :=
  { name := "tmsg", enum := ⟨"TLV_TMSG", "1"⟩, fields := [c6Field],
    has_variable_fields := true, is_tlv := true }

/-- Witness for the amended C6 at the concrete TLV record built in the
counterexample. -/
theorem C6_generation_rejects_witness :
    (print_tlv_gen_check c6Msg).isOk = false :=
  C6_generation_rejects c6Msg c6Field rfl (by simp [c6Msg]) (Or.inl rfl)

/-! ## Claim C10: padding fields -/

/-- C10: a field whose name starts with `pad` is padding purely by that
prefix: it is always treated as an array whatever its element count, it is
excluded from the parameter lists of both generated entry points, the
generated decode only advances the cursor past its `num_elems` bytes, and
the generated encode writes exactly that many zero bytes. -/
theorem C10_padding (f : Field) (h : pyStartsWith f.name "pad" = true) :
    f.is_padding = true ∧
    f.is_array = true ∧
    (∀ m : Message, f ∉ fromwire_params m ∧ f ∉ towire_params m) ∧
    (∀ fs inst env, encodeFields (f :: fs) inst env =
      List.replicate f.num_elems 0 ++ encodeFields fs inst env) ∧
    (∀ fs bs env, decodeFields (f :: fs) bs env =
      if f.num_elems ≤ bs.length then
        decodeFields fs (bs.drop f.num_elems) env
      else none) := by
  have hpad : f.is_padding = true := by
    simp [Field.is_padding, h]
  refine ⟨hpad, ?_, ?_, ?_, ?_⟩
  · simp [Field.is_array, hpad]
  · intro m
    constructor
    · intro hmem
      have := (List.mem_filter.mp hmem).2
      simp [hpad] at this
    · intro hmem
      have := (List.mem_filter.mp hmem).2
      simp [hpad] at this
  · intro fs inst env
    simp [encodeFields, hpad]
  · intro fs bs env
    simp [decodeFields, hpad]

/-- A concrete 4-byte pad field. -/
def padExample : Field :=
  { message := "m", name := "pad1", num_elems := 4, fieldtype := ⟨"pad"⟩ }

/-- Witness for C10 at a concrete 4-byte pad field. -/
theorem C10_padding_witness :
    encodeFields [padExample] [] [] = [0, 0, 0, 0] := by
  rw [(C10_padding padExample (by decide)).2.2.2.1 [] [] []]
  rfl

/-! ## Claim C3: length-variable validation at addField time -/

theorem checkLenFieldScan_not_found (bolt : Bool) (fld : Field) (lv : String)
    (hlv : fld.lenvar = some lv) (fs : List Field)
    (h : ∀ f ∈ fs, f.name ≠ lv) :
    (checkLenFieldScan bolt fld fs).isOk = false := by
  induction fs with
  | nil => simp [checkLenFieldScan, Except.isOk, Except.toBool]
  | cons f fs ih =>
    have hne : ¬ some f.name = fld.lenvar := by
      rw [hlv]
      simp only [Option.some.injEq]
      exact h f (by simp)
    have ih' := ih (fun g hg => h g (List.mem_cons_of_mem _ hg))
    simp only [checkLenFieldScan]
    rw [if_neg hne]
    cases hsc : checkLenFieldScan bolt fld fs with
    | ok v => rw [hsc] at ih'; simp [Except.isOk, Except.toBool] at ih'
    | error e => simp [Except.map, Except.isOk, Except.toBool]

theorem checkLenFieldScan_found (bolt : Bool) (fld : Field) (lv : String)
    (hlv : fld.lenvar = some lv) :
    ∀ (pre : List Field) (f : Field) (post : List Field),
      (∀ g ∈ pre, g.name ≠ lv) → f.name = lv →
      ((f.fieldtype.name ≠ "u16" ∧ bolt = true) →
        (checkLenFieldScan bolt fld (pre ++ f :: post)).isOk = false) ∧
      ((f.is_array || f.needs_ptr_to_ptr) = true →
        (checkLenFieldScan bolt fld (pre ++ f :: post)).isOk = false) ∧
      ((bolt = true → f.fieldtype.name = "u16") →
       (f.is_array || f.needs_ptr_to_ptr) = false →
        checkLenFieldScan bolt fld (pre ++ f :: post) =
          .ok (pre ++ ({ f with is_len_var := true, lenvar_for := some fld.name } :: post)))
  | [], f, post, _, hf => by
    have heq : some f.name = fld.lenvar := by rw [hlv, hf]
    refine ⟨?_, ?_, ?_⟩
    · rintro ⟨hne, hb⟩
      simp only [List.nil_append, checkLenFieldScan]
      rw [if_pos heq, if_pos (by simp [hne, hb])]
      simp [Except.isOk, Except.toBool]
    · intro harr
      simp only [List.nil_append, checkLenFieldScan]
      rw [if_pos heq]
      by_cases hc : (decide ¬f.fieldtype.name = "u16" && bolt) = true
      · rw [if_pos hc]; simp [Except.isOk, Except.toBool]
      · rw [if_neg hc, if_pos harr]; simp [Except.isOk, Except.toBool]
    · intro h16 harr
      simp only [List.nil_append, checkLenFieldScan]
      rw [if_pos heq,
          if_neg (by cases bolt with
            | false => simp
            | true => simp [h16 rfl]),
          if_neg (by simp [harr])]
  | g :: pre, f, post, hpre, hf => by
    have hne : ¬ some g.name = fld.lenvar := by
      rw [hlv]
      simp only [Option.some.injEq]
      exact hpre g (by simp)
    have ih := checkLenFieldScan_found bolt fld lv hlv pre f post
      (fun x hx => hpre x (List.mem_cons_of_mem _ hx)) hf
    refine ⟨?_, ?_, ?_⟩
    · intro hc
      have := ih.1 hc
      simp only [List.cons_append, checkLenFieldScan, List.append_eq]
      rw [if_neg hne]
      cases hsc : checkLenFieldScan bolt fld (pre ++ f :: post) with
      | ok v => rw [hsc] at this; simp [Except.isOk, Except.toBool] at this
      | error e => simp [Except.map, Except.isOk, Except.toBool]
    · intro hc
      have := ih.2.1 hc
      simp only [List.cons_append, checkLenFieldScan, List.append_eq]
      rw [if_neg hne]
      cases hsc : checkLenFieldScan bolt fld (pre ++ f :: post) with
      | ok v => rw [hsc] at this; simp [Except.isOk, Except.toBool] at this
      | error e => simp [Except.map, Except.isOk, Except.toBool]
    · intro h16 harr
      have := ih.2.2 h16 harr
      simp only [List.cons_append, checkLenFieldScan, List.append_eq]
      rw [if_neg hne, this]
      simp [Except.map]

/-- C3: adding a length-prefixed field to a message is a fatal error when
its length-variable name matches no field already present; when the first
matching earlier field is an array or needs pointer-to-pointer handling
(optional or itself variable-size) it is a fatal error; in strict (bolt)
mode a matched field whose type is not u16 is additionally a fatal error;
otherwise the matched field is marked as the length source
(`is_len_var` with a back-reference to the new field) and the new field is
appended with the variable-fields flag set. -/
theorem C3_length_variable_checks (bolt : Bool) (m : Message) (fld : Field)
    (lv : String) (hlv : fld.lenvar = some lv) (hopt : fld.optional = false) :
    ((∀ f ∈ m.fields, f.name ≠ lv) → (addField bolt m fld).isOk = false) ∧
    (∀ pre f post, m.fields = pre ++ f :: post →
      (∀ g ∈ pre, g.name ≠ lv) → f.name = lv →
      ((f.fieldtype.name ≠ "u16" ∧ bolt = true) →
        (addField bolt m fld).isOk = false) ∧
      ((f.is_array || f.needs_ptr_to_ptr) = true →
        (addField bolt m fld).isOk = false) ∧
      ((bolt = true → f.fieldtype.name = "u16") →
       (f.is_array || f.needs_ptr_to_ptr) = false →
        addField bolt m fld =
          .ok { m with fields := (pre ++ ({ f with is_len_var := true, lenvar_for := some fld.name } :: post)) ++ [fld], has_variable_fields := true })) := by
  have hvs : fld.is_variable_size = true := by
    simp [Field.is_variable_size, hlv]
  have haf : addField bolt m fld = (checkLenFieldScan bolt fld m.fields).map
      (fun fs => { m with fields := fs ++ [fld], has_variable_fields := true }) := by
    simp [addField, hvs, checkLenField, hopt]
  constructor
  · intro h
    have := checkLenFieldScan_not_found bolt fld lv hlv m.fields h
    rw [haf]
    cases hsc : checkLenFieldScan bolt fld m.fields with
    | ok v => rw [hsc] at this; simp [Except.isOk, Except.toBool] at this
    | error e => simp [Except.map, Except.isOk, Except.toBool]
  · intro pre f post hm hpre hf
    have hfound := checkLenFieldScan_found bolt fld lv hlv pre f post hpre hf
    refine ⟨?_, ?_, ?_⟩
    · intro hc
      have := hfound.1 hc
      rw [haf, hm]
      cases hsc : checkLenFieldScan bolt fld (pre ++ f :: post) with
      | ok v => rw [hsc] at this; simp [Except.isOk, Except.toBool] at this
      | error e => simp [Except.map, Except.isOk, Except.toBool]
    · intro hc
      have := hfound.2.1 hc
      rw [haf, hm]
      cases hsc : checkLenFieldScan bolt fld (pre ++ f :: post) with
      | ok v => rw [hsc] at this; simp [Except.isOk, Except.toBool] at this
      | error e => simp [Except.map, Except.isOk, Except.toBool]
    · intro h16 harr
      have := hfound.2.2 h16 harr
      rw [haf, hm, this]
      simp [Except.map]

/-- The u16 length field of the C3 witness message. -/
def c3LenField : Field :=
  { message := "m", name := "len", fieldtype := ⟨"u16"⟩ }

/-- The C3 witness message already holding the length field. -/
def c3Msg : Message :=
  { name := "m", enum := ⟨"WIRE_M", "7"⟩, fields := [c3LenField] }

/-- The length-prefixed field of the C3 witness. -/
def c3Fld : Field :=
  { message := "m", name := "data", lenvar := some "len",
    fieldtype := ⟨"u8"⟩ }

/-- Witness for C3: in bolt mode, adding `data` counted by the earlier u16
field `len` succeeds and marks `len` as the length source for `data`. -/
theorem C3_length_variable_checks_witness :
    addField true c3Msg c3Fld =
      .ok { c3Msg with fields := [{ c3LenField with is_len_var := true, lenvar_for := some "data" }, c3Fld], has_variable_fields := true } :=
  ((C3_length_variable_checks true c3Msg c3Fld "len" rfl rfl).2
    [] c3LenField [] rfl (by simp) rfl).2.2 (fun _ => rfl) (by decide)

/-! ## Claim C4: byte-count divisibility in inferred mode -/

/-- C4: building a field in bolt mode from a bare byte count `B` with
inferred type `ft` of width `w` is a fatal invalid-size error when `w` does
not divide `B`, and otherwise succeeds with element count exactly
`B / w`. -/
theorem C4_inferred_size_divisibility (message nm size : String)
    (prev : Option String) (B w : Nat) (ft : FieldType)
    (hq : pyStartsWith size "?" = false)
    (hs : pyContains size '*' = false)
    (hpv : ¬ some size = prev)
    (ht : pyEndsWith nm "+" = false)
    (hn : pyIntNat? size = some B)
    (hg : guess_type message nm B = some ft)
    (hw : FieldType.typesize ft.name = some w) :
    (B % w ≠ 0 → (mkField true message nm size prev).isOk = false) ∧
    (B % w = 0 → mkField true message nm size prev =
      .ok { message := message, comments := [], name := nm, lenvar := none,
            num_elems := B / w, optional := false, is_tlv := false,
            fieldtype := ft }) := by
  unfold mkField
  rw [ht]
  simp only [Bool.false_eq_true, if_false]
  rw [if_neg (by simp [hq]), if_neg (by simp [hs]),
      if_neg (by simp [hpv])]
  simp only [Except.bind, hn, hg, hw, eq_self_iff_true, if_true]
  constructor
  · intro h
    rw [if_pos (show (B % w != 0) = true by simpa [bne_iff_ne] using h)]
    rfl
  · intro h
    rw [if_neg (show ¬(B % w != 0) = true by simp [h])]

/-- Witness for C4: `x_msat,7` hits the msat naming convention (8-byte
amount) and 7 is not a multiple of 8, a fatal error; `features,5` infers u8
and yields 5 elements. -/
theorem C4_inferred_size_divisibility_witness :
    (mkField true "m" "x_msat" "7" none).isOk = false ∧
    mkField true "m" "features" "5" none =
      .ok { message := "m", comments := [], name := "features",
            lenvar := none, num_elems := 5, optional := false,
            is_tlv := false, fieldtype := ⟨"u8"⟩ } :=
  ⟨(C4_inferred_size_divisibility "m" "x_msat" "7" none 7 8
      ⟨"struct amount_msat"⟩ (by decide) (by decide) (by simp) (by decide)
      (by decide) (by decide) (by decide)).1 (by decide),
   (C4_inferred_size_divisibility "m" "features" "5" none 5 1 ⟨"u8"⟩
      (by decide) (by decide) (by simp) (by decide) (by decide) (by decide)
      (by decide)).2 (by decide)⟩

/-! ## Claim C5: `count * type` records and the previous-field tracker -/

/-- The fresh message of the C5 counterexample. -/
def c5Msg0 : Message := { name := "m", enum := ⟨"WIRE_M", "5"⟩ }

/-- C5 counterexample: in bolt mode, processing the records
`x,2` / `a,x*1` / `b,x*1` makes BOTH `a` and `b` length-prefixed on `x`:
for field `b` the count `x` is not the name of the immediately preceding
field (which is `a`), yet `b` is still made length-prefixed, because the
loop tracker `prevfield` is not updated by length-prefixed fields; so
"exactly when count equals the immediately preceding field's name" is
false. -/
theorem C5_counterexample :
    (processFields true c5Msg0 [("x", "2"), ("a", "x*1"), ("b", "x*1")]).map
      (fun p => ((p.1.fields.getD 1 default).name,
                 (p.1.fields.getD 2 default).name,
                 (p.1.fields.getD 2 default).lenvar)) =
    .ok ("a", "b", some "x") := by decide

/-- C5 amended: for a `count*type` size token (no `?` prefix), the field is
made length-prefixed (lenvar set) exactly when count equals the TRACKED
previous-field name — the most recent field that was not itself
length-prefixed, since `prevfield` is only updated by fields without a
lenvar (last conjunct) — and otherwise count must parse as a literal
integer (else fatal), the field getting that element count in explicit
mode (in bolt mode the count is recomputed as byte-size / element-width by
the later size pass). -/
theorem C5_star_count_rule (bolt : Bool) (mname nm size : String)
    (prev : Option String)
    (hq : pyStartsWith size "?" = false)
    (hs : pyContains size '*' = true) :
    ((some ((splitOnChar '*' size).getD 0 "") = prev →
       ∀ f, mkField bolt mname nm size prev = .ok f →
         f.lenvar = some ((splitOnChar '*' size).getD 0 "")) ∧
     (¬ some ((splitOnChar '*' size).getD 0 "") = prev →
       (pyIntNat? ((splitOnChar '*' size).getD 0 "") = none →
         (mkField bolt mname nm size prev).isOk = false) ∧
       (∀ k f, pyIntNat? ((splitOnChar '*' size).getD 0 "") = some k →
         mkField bolt mname nm size prev = .ok f →
         f.lenvar = none ∧ (bolt = false → f.num_elems = k)))) ∧
    (∀ (st : Message × Option String) (rc : String × String) m2 p2 f,
       mkField bolt st.1.name rc.1 rc.2 st.2 = .ok f →
       loopStep bolt st rc = .ok (m2, p2) →
       p2 = if f.lenvar.isNone then some rc.1 else st.2) := by
  constructor
  · constructor
    · intro hprev f
      unfold mkField
      rw [if_neg (by simp [hq]), if_pos (by simp [hs]), if_pos hprev]
      simp only [Except.bind]
      intro hok
      split at hok
      · split at hok
        · exact Except.noConfusion hok
        · split at hok
          · exact Except.noConfusion hok
          · split at hok
            · exact Except.noConfusion hok
            · split at hok
              · exact Except.noConfusion hok
              · injection hok with h
                subst h
                rfl
      · injection hok with h
        subst h
        rfl
    · intro hprev
      constructor
      · intro hn
        unfold mkField
        rw [if_neg (by simp [hq]), if_pos (by simp [hs]), if_neg hprev, hn]
        simp [Except.isOk, Except.toBool, Except.bind]
      · intro k f hn
        unfold mkField
        rw [if_neg (by simp [hq]), if_pos (by simp [hs]), if_neg hprev, hn]
        simp only [Except.bind]
        intro hok
        split at hok
        next hbolt =>
          split at hok
          · exact Except.noConfusion hok
          · split at hok
            · exact Except.noConfusion hok
            · split at hok
              · exact Except.noConfusion hok
              · split at hok
                · exact Except.noConfusion hok
                · injection hok with h
                  subst h
                  exact ⟨rfl, fun hb => by rw [hbolt] at hb; cases hb⟩
        next hbolt =>
          injection hok with h
          subst h
          exact ⟨rfl, fun _ => rfl⟩
  · intro st rc m2 p2 f hmk hstep
    unfold loopStep at hstep
    rw [hmk] at hstep
    simp only [Bind.bind, Except.bind] at hstep
    split at hstep
    · exact Except.noConfusion hstep
    · split at hstep
      next hl =>
        rw [if_pos hl]
        injection hstep with h
        injection h with h1 h2
        exact h2.symm
      next hl =>
        rw [if_neg hl]
        injection hstep with h
        injection h with h1 h2
        exact h2.symm

/-- The field `b` of the C5 witness, length-prefixed on the tracked name
`x`. -/
def c5bField : Field :=
  { message := "m", name := "b", lenvar := some "x", fieldtype := ⟨"u8"⟩ }

/-- Witness for the amended C5 at the counterexample record `b,x*1` with
tracked previous name `x`. -/
theorem C5_star_count_rule_witness : c5bField.lenvar = some "x" :=
  (C5_star_count_rule true "m" "b" "x*1" (some "x") (by decide)
    (by decide)).1.1 rfl c5bField (by decide)

/-! ## Claim C9: bare previous-field-name size token in bolt mode -/

/-- The fresh message of the C9 counterexample. -/
def c9Msg0 : Message := { name := "m", enum := ⟨"WIRE_M", "9"⟩ }

/-- C9 counterexample: the bare-token branch does NOT key on the
immediately preceding field.  In bolt mode on the records
`x,2` / `a,x*1` / `b,a`, the bare size token of `b` equals the name of its
immediately preceding field `a`, yet `b` is not made length-prefixed: `a`
used a lenvar so the loop tracker still holds `x`, the token misses it,
falls through to integer parsing and the build fatally errors (first
conjunct).  The branch fires precisely for the TRACKED name: with the
record `b,x` instead, `b` becomes length-prefixed on `x` (second
conjunct), although `x` is not the immediately preceding field either. -/
theorem C9_counterexample :
    processFields true c9Msg0 [("x", "2"), ("a", "x*1"), ("b", "a")] =
      .error "invalid literal for int: a" ∧
    (processFields true c9Msg0 [("x", "2"), ("a", "x*1"), ("b", "x")]).map
      (fun p => ((p.1.fields.getD 1 default).name,
                 (p.1.fields.getD 2 default).lenvar)) =
      .ok ("a", some "x") := by
  constructor <;> decide

/-- C9 amended: in bolt mode, a bare size token (no `*`, no `?` prefix)
equal to the TRACKED previous-field name — the `prevname` the main loop
threads, which length-prefixed fields do not update, so it is the most
recent field that was not itself length-prefixed — makes the field
length-prefixed on that name, with the size treated as 1 byte: the element
type is inferred for size 1 and has width exactly 1, and the element count
is 1 — even though the documented grammar lists no bare length-variable
size token. -/
theorem C9_bare_prevname_lenvar (message nm prevn : String)
    (hq : pyStartsWith prevn "?" = false)
    (hs : pyContains prevn '*' = false)
    (ht : pyEndsWith nm "+" = false) :
    ∀ f, mkField true message nm prevn (some prevn) = .ok f →
      f.lenvar = some prevn ∧ f.num_elems = 1 ∧
      guess_type message nm 1 = some f.fieldtype ∧
      FieldType.typesize f.fieldtype.name = some 1 := by
  intro f
  unfold mkField
  rw [ht]
  simp only [Bool.false_eq_true, if_false]
  rw [if_neg (by simp [hq]), if_neg (by simp [hs]), if_pos (by simp)]
  simp only [Except.bind, eq_self_iff_true, if_true]
  intro hok
  split at hok
  · exact Except.noConfusion hok
  next x1 B hB =>
    split at hok
    · exact Except.noConfusion hok
    next x2 ft hft =>
      split at hok
      · exact Except.noConfusion hok
      next x3 t htv =>
        split at hok
        next hmod => exact Except.noConfusion hok
        next hmod =>
          have hB1 : B = 1 := by
            have h2 : pyIntNat? "1" = some 1 := by decide
            rw [h2] at hB
            exact (Option.some_inj.mp hB).symm
          subst hB1
          have hmod' : 1 % t = 0 := by
            simpa [bne_iff_ne] using hmod
          have ht1 : t = 1 := by
            rcases t with _ | _ | t
            · simp at hmod'
            · rfl
            · rw [Nat.mod_eq_of_lt (by omega)] at hmod'
              omega
          subst ht1
          injection hok with h
          subst h
          exact ⟨rfl, rfl, hft, htv⟩

/-- The field built by the C9 witness. -/
def c9Field : Field :=
  { message := "msg", name := "data", lenvar := some "len",
    fieldtype := ⟨"u8"⟩ }

/-- Witness for C9: the record `data,len` right after field `len` becomes
a length-prefixed u8 array. -/
theorem C9_bare_prevname_lenvar_witness :
    c9Field.lenvar = some "len" ∧ c9Field.num_elems = 1 ∧
    guess_type "msg" "data" 1 = some c9Field.fieldtype ∧
    FieldType.typesize c9Field.fieldtype.name = some 1 :=
  C9_bare_prevname_lenvar "msg" "data" "len" (by decide) (by decide)
    (by decide) c9Field (by decide)

end GW
